import Mathlib

/-!
# Verification of the apiculture-iot defense monitoring pipeline

A shallow embedding of `apiculture_iot/defense.py`, translated function by
function, together with theorems settling the specification claims about it.

Modelling conventions:
* Python integers are `Int`/`Nat`; Python `//` (floor division) is `Int.fdiv`.
* The classifier's `confidence` float (range 0..1) is modelled as `ℚ`;
  only order comparisons and defaulting are performed on it in the source.
* Fallible operations (HTTP requests, GPIO writes, `time.sleep`) are driven by
  explicit environment records saying which call raises; `try/except` blocks
  become case analysis on those records.
* File-system state is tracked as explicit lists of captured / deleted paths.
-/

namespace ApicultureDefense

/-! ## Servo and capture configuration (defense.py lines 52-55) -/

def SERVO_MIN_ANGLE : Int := 0
def SERVO_MAX_ANGLE : Int := 180
def NUM_CAPTURE_POINTS : Nat := 5

/-- Line 55: `SWEEP_STEP = (SERVO_MAX_ANGLE - SERVO_MIN_ANGLE) // (NUM_CAPTURE_POINTS - 1)
if NUM_CAPTURE_POINTS > 1 else 0` (line 55), for arbitrary configuration values. -/
def sweepStep (minA maxA : Int) (count : Nat) : Int :=
  if 1 < count then (maxA - minA).fdiv ((count : Int) - 1) else 0

def SWEEP_STEP : Int := sweepStep SERVO_MIN_ANGLE SERVO_MAX_ANGLE NUM_CAPTURE_POINTS

/-- Python `range(a, b, step)` semantics (as a list), for a nonzero step. -/
def pyRange (a b step : Int) : List Int :=
  if 0 < step then
    (List.range (if b ≤ a then 0 else ((b - a - 1).fdiv step + 1).toNat)).map
      (fun (i : Nat) => a + step * (i : Int))
  else if step < 0 then
    (List.range (if a ≤ b then 0 else ((a - b - 1).fdiv (-step) + 1).toNat)).map
      (fun (i : Nat) => a - (-step) * (i : Int))
  else []

/-- The capture-angle sequence (defense.py lines 210-215):
forward `range(min, max+1, SWEEP_STEP)`, backward `range(max, min-1, -SWEEP_STEP)`. -/
def anglesToCapture (minA maxA : Int) (count : Nat) (forward : Bool) : List Int :=
  let step := sweepStep minA maxA count
  if forward then pyRange minA (maxA + 1) step else pyRange maxA (minA - 1) (-step)

/-- Capture angles at the shipped configuration. -/
def captureAngles (forward : Bool) : List Int :=
  anglesToCapture SERVO_MIN_ANGLE SERVO_MAX_ANGLE NUM_CAPTURE_POINTS forward

/-- The step of the finer-grained motion sequence, `round(SWEEP_STEP / 5)`
(lines 211 and 214). At the shipped constants `45 / 5 = 9` is exact, so the
Python float `round` coincides with exact integer division. -/
def FINE_STEP : Int := SWEEP_STEP.fdiv 5

/-- The finer-grained motion sequence (lines 211 and 214):
forward `range(min, max+1, round(SWEEP_STEP/5))`,
backward `range(max, min-1, round(-SWEEP_STEP/5))`. -/
def fineSweepAngles (forward : Bool) : List Int :=
  if forward then
    pyRange SERVO_MIN_ANGLE (SERVO_MAX_ANGLE + 1) FINE_STEP
  else
    pyRange SERVO_MAX_ANGLE (SERVO_MIN_ANGLE - 1) (-FINE_STEP)

/-! ## Classifier responses and the per-sample verdict (defense.py lines 280-291)

The JSON field `run_sprinkler` can arrive as a boolean, as a string, or be
absent (`response_json.get('run_sprinkler', 'N')` supplies the default `'N'`).
Line 283 evaluates `run_sprinkler.upper() == 'Y' or run_sprinkler is True`:
for a string the left disjunct decides the verdict; for a boolean, calling
`.upper()` raises `AttributeError` before `is True` is ever evaluated. -/

inductive RunSprinklerField
  | absent
  | str (s : String)
  | bool (b : Bool)
deriving DecidableEq

/-- Python `str.upper()` restricted to its ASCII behaviour (the only strings
compared here are "Y"/"N" variants). -/
def pyUpper (s : String) : String := String.mk (s.data.map Char.toUpper)

/-- Evaluation of lines 282-283. `Except.error ()` is the `AttributeError`
raised by `run_sprinkler.upper()` when the field holds a boolean. -/
def interpretRunSprinkler : RunSprinklerField → Except Unit Bool
  | .absent => .ok (pyUpper "N" == "Y")
  | .str s => .ok (pyUpper s == "Y")
  | .bool _ => .error ()

/-- The fields of a parsed classifier response that defense.py consumes.
`confidence` is `predator_analysis.confidence` (`.get('confidence', 0)`
defaults it to 0 when absent). -/
structure ApiResponse where
  runSprinkler : RunSprinklerField
  confidence : Option ℚ
  imageId : String
deriving DecidableEq

/-- Evaluation of `response_json.get('predator_analysis').get('confidence', 0)`. -/
def pyConf (r : ApiResponse) : ℚ := r.confidence.getD 0

/-- Outcome of one sample's upload: a transport failure / non-2xx status
(`requests` raising, or `raise_for_status`), or a parsed JSON response. -/
inductive UploadOutcome
  | transportError
  | ok (resp : ApiResponse)
deriving DecidableEq

/-- What a captured image file holds: a live camera shot at a servo angle,
or a byte-for-byte `shutil.copy` of a fallback-library file. -/
inductive FileContent
  | shot (angle : Int)
  | copyOf (src : String)
deriving DecidableEq

structure CapturedFile where
  path : String
  content : FileContent
deriving DecidableEq

/-- One sample as seen by `analyze_captured_images`: the local file plus the
environment-determined outcome of uploading it. -/
structure Sample where
  file : CapturedFile
  outcome : UploadOutcome
deriving DecidableEq

/-- State threaded through the upload loop of `analyze_captured_images`
(lines 265-267 plus the global `defense_stat['total_threats']` and the
cleanup performed by the per-sample `finally`). -/
structure AnalyzeState where
  anyThreat : Bool
  allSuccess : Bool
  best : Option ApiResponse
  totalThreats : Nat
  deleted : List String
deriving DecidableEq

/-- Line 288's replacement rule: keep the current best unless the new
response's confidence is strictly greater. -/
def betterOf (b r : ApiResponse) : ApiResponse :=
  if pyConf b < pyConf r then r else b

/-- The selection the loop performs over positive verdicts: start from the
first positive and fold line 288's strict-greater replacement over the rest. -/
def firstMax (p : ApiResponse) (ps : List ApiResponse) : ApiResponse :=
  ps.foldl betterOf p

/-- One iteration of the loop body (lines 269-303). Every branch — success,
`RequestException`, and the generic `except` — falls through to the `finally`
that deletes the sample file. -/
def processSample (st : AnalyzeState) (s : Sample) : AnalyzeState :=
  let st1 :=
    match s.outcome with
    | .transportError => { st with allSuccess := false }
    | .ok resp =>
      match interpretRunSprinkler resp.runSprinkler with
      | .error _ => { st with allSuccess := false }
      | .ok false => st
      | .ok true =>
        { st with
          anyThreat := true
          best := match st.best with
                  | none => some resp
                  | some b => some (betterOf b resp)
          totalThreats := st.totalThreats + 1 }
  { st1 with deleted := st1.deleted ++ [s.file.path] }

/-- The upload loop of `analyze_captured_images`, started from the function's
initial values (lines 265-267) and the current `total_threats` counter. -/
def analyzeLoop (tt0 : Nat) (samples : List Sample) : AnalyzeState :=
  samples.foldl processSample { anyThreat := false, allSuccess := true,
                                best := none, totalThreats := tt0, deleted := [] }

/-- Result of `analyze_captured_images`. `raised` records an uncaught
exception escaping the function: the alert `requests.post` on line 339 is not
inside any `try`, so a transport failure there propagates to the caller. -/
structure AnalyzeResult where
  loopState : AnalyzeState
  alertAttempted : Bool
  alertPosted : Bool
  raised : Bool
deriving DecidableEq

/-- Function `analyze_captured_images(captured_files)` (lines 260-343): run the upload
loop, then, when a best positive verdict exists, build the alert event and
POST it (lines 305-341); `alertRaises` says whether that POST raises. -/
def analyzeCapturedImages (tt0 : Nat) (samples : List Sample)
    (alertRaises : Bool) : AnalyzeResult :=
  let st := analyzeLoop tt0 samples
  match st.best with
  | none => { loopState := st, alertAttempted := false, alertPosted := false,
              raised := false }
  | some _ =>
      if alertRaises then
        { loopState := st, alertAttempted := true, alertPosted := false,
          raised := true }
      else
        { loopState := st, alertAttempted := true, alertPosted := true,
          raised := false }

/-- The positive verdict a sample contributes, if any: its response when the
upload succeeded and line 283 evaluated to a threat without raising. -/
def positiveResp (s : Sample) : Option ApiResponse :=
  match s.outcome with
  | .transportError => none
  | .ok r =>
    match interpretRunSprinkler r.runSprinkler with
    | .ok true => some r
    | _ => none

/-- All positive verdicts of a sweep, in upload order. -/
def positivesOf (samples : List Sample) : List ApiResponse :=
  samples.filterMap positiveResp

/-- Whether the loop body completes a sample without entering an `except`
handler (upload succeeded and the verdict check did not raise). -/
def uploadProcessedOk (s : Sample) : Bool :=
  match s.outcome with
  | .transportError => false
  | .ok r =>
    match interpretRunSprinkler r.runSprinkler with
    | .error _ => false
    | .ok _ => true

/-- What `response_with_threat` ends up as, given its value before a run of
the loop and the positive verdicts seen during it. -/
def bestAfter (b : Option ApiResponse) (l : List ApiResponse) : Option ApiResponse :=
  match b, l with
  | none, [] => none
  | none, p :: ps => some (firstMax p ps)
  | some q, ps => some (firstMax q ps)

/-! ## `sweep_servo_and_capture` (defense.py lines 144-257) -/

/-- Environment of one sweep: cached hardware availability flags, the
fallback library (`images/bee_predators`), the randomness source behind
`random.choice` (an index per loop iteration), and whether / at which capture
`camera.capture_file` raises during a camera-based sweep. -/
structure SweepEnv where
  cameraAvailable : Bool
  servoAvailable : Bool
  fallbackDirExists : Bool
  fallbackImages : List String
  choice : Nat → Nat
  cameraFaultAt : Option Nat

/-- Image path `f'defense_sweep_ts_pos(angle).jpg'` (lines 174 and 233) —
the timestamp is elided; the fallback path and the camera path use the very
same naming scheme. -/
def mkImagePath (angle : Int) : String :=
  "defense_sweep_pos" ++ toString angle ++ ".jpg"

def camFile (angle : Int) : CapturedFile :=
  { path := mkImagePath angle, content := .shot angle }

/-- The fallback images created on lines 166-181: for `i` in
`range(NUM_CAPTURE_POINTS)`, simulate the angle from the direction and copy a
randomly chosen library file to the photo directory. -/
def fallbackFiles (env : SweepEnv) (forward : Bool) : List CapturedFile :=
  (List.range NUM_CAPTURE_POINTS).map (fun (i : Nat) =>
    let angle := if forward then SERVO_MIN_ANGLE + (i : Int) * SWEEP_STEP
                 else SERVO_MAX_ANGLE - (i : Int) * SWEEP_STEP
    { path := mkImagePath angle,
      content := .copyOf (env.fallbackImages.getD
        (env.choice i % env.fallbackImages.length) "") })

/-- Result of one sweep: the returned success flag, the captured files, and
the servo positions actually commanded (empty on the fallback path, which
performs no motion). The `threat_detected` component of the Python triple is
always `False` at this point (line 245) and its consumer discards it. -/
structure CaptureResult where
  success : Bool
  files : List CapturedFile
  moved : List Int
deriving DecidableEq

/-- Output of the camera-path loop over the fine motion angles. -/
structure CamOut where
  moved : List Int
  files : List CapturedFile
  ok : Bool
deriving DecidableEq

/-- The camera-path loop (lines 225-245): move the servo to every fine angle;
at each angle belonging to the capture set, `camera.capture_file` — which
raises at the `faultAt`-th capture, sending control to the handler on lines
247-254, which returns the partially captured list with `success=False`. -/
def camLoop (caps : List Int) (faultAt : Option Nat) (moved : List Int)
    (files : List CapturedFile) : List Int → CamOut
  | [] => { moved := moved, files := files, ok := true }
  | a :: rest =>
    let moved1 := moved ++ [a]
    if a ∈ caps then
      if faultAt = some files.length then
        { moved := moved1, files := files, ok := false }
      else
        camLoop caps faultAt moved1 (files ++ [camFile a]) rest
    else
      camLoop caps faultAt moved1 files rest

/-- Function `sweep_servo_and_capture(direction_forward)` (lines 144-257).
Branch order as in the source: fallback path when the camera is unavailable
(lines 151-190, failing when the library directory is missing or empty),
then the servo-availability guard (lines 193-195), then the camera loop. -/
def sweepServoAndCapture (env : SweepEnv) (forward : Bool) : CaptureResult :=
  if !env.cameraAvailable then
    if env.fallbackDirExists then
      if env.fallbackImages.isEmpty then { success := false, files := [], moved := [] }
      else { success := true, files := fallbackFiles env forward, moved := [] }
    else { success := false, files := [], moved := [] }
  else if !env.servoAvailable then { success := false, files := [], moved := [] }
  else
    let out := camLoop (captureAngles forward) env.cameraFaultAt [] []
        (fineSweepAngles forward)
    { success := out.ok, files := out.files, moved := out.moved }

/-! ## `activate_sprinkler` (defense.py lines 114-141) -/

/-- Which of the fallible calls inside `activate_sprinkler` raise:
`GPIO.output(HIGH)`, `time.sleep`, the `GPIO.output(LOW)` in the `try` body,
and the recovery `GPIO.output(LOW)` inside the `except` handler. -/
structure SprinklerFaults where
  highRaises : Bool
  sleepRaises : Bool
  lowRaises : Bool
  recoveryLowRaises : Bool
deriving DecidableEq

/-- The process-wide defense state: the direction flag (line 111), the
`defense_stat` counters (lines 104-108), the cached sprinkler availability
and the current level of the sprinkler GPIO pin. -/
structure DefenseState where
  sweepDirectionForward : Bool
  totalChecks : Nat
  totalThreats : Nat
  totalActuations : Nat
  sprinklerAvailable : Bool
  sprinklerLevel : Bool
deriving DecidableEq

/-- The `except` handler of lines 135-141: `try: GPIO.output(LOW) except:
pass`, so the pin goes low only when that recovery write does not itself
raise; the handler never raises. -/
def sprinklerRecovery (f : SprinklerFaults) (st : DefenseState) : DefenseState :=
  if f.recoveryLowRaises then st else { st with sprinklerLevel := false }

/-- The `try` body of `activate_sprinkler` (lines 120-133): raise HIGH,
increment `total_sprinkler_activation` (before the sleep!), sleep for the
duration, lower the pin, return `True`. An error value carries the state at
the moment of the exception. -/
def sprinklerBody (f : SprinklerFaults) (st : DefenseState) :
    Except DefenseState (DefenseState × Bool) :=
  if f.highRaises then .error st
  else
    let st1 := { st with sprinklerLevel := true,
                         totalActuations := st.totalActuations + 1 }
    if f.sleepRaises then .error st1
    else if f.lowRaises then .error st1
    else .ok ({ st1 with sprinklerLevel := false }, true)

/-- Function `activate_sprinkler()` (lines 114-141) with its exception structure kept
explicit: unavailable hardware returns `False` without touching the pin;
the `try` body's exceptions are all caught by the handler. -/
def activateSprinklerE (f : SprinklerFaults) (st : DefenseState) :
    Except Unit (DefenseState × Bool) :=
  if !st.sprinklerAvailable then .ok (st, false)
  else
    match sprinklerBody f st with
    | .ok r => .ok r
    | .error stE => .ok (sprinklerRecovery f stE, false)

/-- Function `activate_sprinkler()` as the total function it is (it never raises). -/
def activateSprinkler (f : SprinklerFaults) (st : DefenseState) :
    DefenseState × Bool :=
  if !st.sprinklerAvailable then (st, false)
  else
    match sprinklerBody f st with
    | .ok r => r
    | .error stE => (sprinklerRecovery f stE, false)

/-! ## One cycle: `capture_and_analyze_sweep` inside `execute_defense_monitoring`
(defense.py lines 346-367 and 374-409) -/

/-- Environment of one monitoring cycle. -/
structure CycleEnv where
  sweep : SweepEnv
  uploadOutcome : Nat → UploadOutcome
  alertRaises : Bool
  faults : SprinklerFaults

/-- Pair each captured file (in order) with its upload outcome. -/
def mkSamples (files : List CapturedFile) (outcome : Nat → UploadOutcome) :
    List Sample :=
  files.enum.map (fun p => { file := p.2, outcome := outcome p.1 })

/-- Everything observable about one iteration of the monitoring loop. -/
structure CycleReport where
  stateAfter : DefenseState
  captureSucceeded : Bool
  capturedFiles : List CapturedFile
  success : Bool
  threat : Bool
  raised : Bool
  directionToggles : Nat
  deletedPaths : List String
  alertAttempted : Bool
  alertPosted : Bool
  sprinklerInvoked : Bool
  sprinklerResult : Bool
deriving DecidableEq

/-- One iteration of `execute_defense_monitoring`'s `while` body (lines
374-409), with `capture_and_analyze_sweep` (lines 346-367) inlined:

1. `defense_stat['total_checks'] += 1` (line 382);
2. sweep and capture; on `not sweep_success or not captured_files`
   return `(False, False)` — no direction toggle, no analysis (356-358);
3. analyze all captured images; if the alert POST raises, the exception
   propagates through `capture_and_analyze_sweep` to the loop's outer
   `except` (line 407): the toggle on line 364 never runs;
4. otherwise toggle `sweep_direction_forward` (line 364) and return
   `(analysis_success, any_threat)`;
5. back in the loop: `if not success: continue` (lines 386-388) — the
   sprinkler is reached only when every upload succeeded;
6. `if should_run_sprinkler: activate_sprinkler()` (lines 390-395). -/
def executeDefenseStep (st : DefenseState) (env : CycleEnv) : CycleReport :=
  let st0 := { st with totalChecks := st.totalChecks + 1 }
  let cap := sweepServoAndCapture env.sweep st0.sweepDirectionForward
  if !cap.success || cap.files.isEmpty then
    { stateAfter := st0, captureSucceeded := cap.success,
      capturedFiles := cap.files, success := false, threat := false,
      raised := false, directionToggles := 0, deletedPaths := [],
      alertAttempted := false, alertPosted := false,
      sprinklerInvoked := false, sprinklerResult := false }
  else
    let samples := mkSamples cap.files env.uploadOutcome
    let ar := analyzeCapturedImages st0.totalThreats samples env.alertRaises
    let st1 := { st0 with totalThreats := ar.loopState.totalThreats }
    if ar.raised then
      { stateAfter := st1, captureSucceeded := cap.success,
        capturedFiles := cap.files, success := false, threat := false,
        raised := true, directionToggles := 0,
        deletedPaths := ar.loopState.deleted,
        alertAttempted := ar.alertAttempted, alertPosted := ar.alertPosted,
        sprinklerInvoked := false, sprinklerResult := false }
    else
      let st2 := { st1 with sweepDirectionForward := !st1.sweepDirectionForward }
      if !ar.loopState.allSuccess then
        { stateAfter := st2, captureSucceeded := cap.success,
          capturedFiles := cap.files, success := false,
          threat := ar.loopState.anyThreat, raised := false,
          directionToggles := 1, deletedPaths := ar.loopState.deleted,
          alertAttempted := ar.alertAttempted, alertPosted := ar.alertPosted,
          sprinklerInvoked := false, sprinklerResult := false }
      else if ar.loopState.anyThreat then
        let act := activateSprinkler env.faults st2
        { stateAfter := act.1, captureSucceeded := cap.success,
          capturedFiles := cap.files, success := true, threat := true,
          raised := false, directionToggles := 1,
          deletedPaths := ar.loopState.deleted,
          alertAttempted := ar.alertAttempted, alertPosted := ar.alertPosted,
          sprinklerInvoked := true, sprinklerResult := act.2 }
      else
        { stateAfter := st2, captureSucceeded := cap.success,
          capturedFiles := cap.files, success := true, threat := false,
          raised := false, directionToggles := 1,
          deletedPaths := ar.loopState.deleted,
          alertAttempted := ar.alertAttempted, alertPosted := ar.alertPosted,
          sprinklerInvoked := false, sprinklerResult := false }

/-- The captured files still on disk once the cycle is over. -/
def filesRemaining (rep : CycleReport) : List CapturedFile :=
  rep.capturedFiles.filter (fun f => !(rep.deletedPaths.contains f.path))

/-! ## Concrete instances used to evaluate the model at specific inputs -/

/-- A negative classifier verdict. -/
def respN : ApiResponse := { runSprinkler := .str "N", confidence := none, imageId := "n" }

/-- A positive verdict with low confidence. -/
def respA : ApiResponse := { runSprinkler := .str "Y", confidence := some 1, imageId := "a" }

/-- A positive verdict with high confidence. -/
def respB : ApiResponse := { runSprinkler := .str "Y", confidence := some 3, imageId := "b" }

/-- A second positive verdict with the same high confidence as `respB`,
arriving later. -/
def respC : ApiResponse := { runSprinkler := .str "y", confidence := some 3, imageId := "c" }

def fileAt (i : Nat) : CapturedFile :=
  { path := "f" ++ toString i ++ ".jpg", content := .shot 0 }

def sampleOf (i : Nat) (o : UploadOutcome) : Sample :=
  { file := fileAt i, outcome := o }

/-- A defense state with the sprinkler hardware available and everything
else at process-start values. -/
def startState : DefenseState :=
  { sweepDirectionForward := true, totalChecks := 0, totalThreats := 0,
    totalActuations := 0, sprinklerAvailable := true, sprinklerLevel := false }

/-- A sweep environment on the fallback path with a one-image library. -/
def fallbackSweepEnv : SweepEnv :=
  { cameraAvailable := false, servoAvailable := true, fallbackDirExists := true,
    fallbackImages := ["hornet.jpg"], choice := fun _ => 0, cameraFaultAt := none }

/-- Fault-free sprinkler environment. -/
def noFaults : SprinklerFaults :=
  { highRaises := false, sleepRaises := false, lowRaises := false,
    recoveryLowRaises := false }

/-- Fallback path with an existing but empty library directory. -/
def emptyLibraryEnv : SweepEnv := { fallbackSweepEnv with fallbackImages := [] }

/-- A camera-based sweep environment whose `capture_file` raises at the
given capture index. -/
def cameraFaultSweepEnv (k : Nat) : SweepEnv :=
  { fallbackSweepEnv with cameraAvailable := true, cameraFaultAt := some k }

/-- A camera-based cycle whose `capture_file` raises at the given capture
index. -/
def cameraFaultCycleEnv (k : Nat) : CycleEnv :=
  { sweep := cameraFaultSweepEnv k
    uploadOutcome := fun _ => .ok respN
    alertRaises := false
    faults := noFaults }

/-- A cycle in which sample 3 of 5 suffers a transport error while sample 4
reports a threat; the alert POST succeeds and the sprinkler hardware is
healthy. -/
def envUploadFailWithThreat : CycleEnv :=
  { sweep := fallbackSweepEnv
    uploadOutcome := fun i =>
      if i = 2 then .transportError
      else if i = 3 then .ok respB
      else .ok respN
    alertRaises := false
    faults := noFaults }

/-- The same cycle as `envUploadFailWithThreat` except that every upload
succeeds and the alert POST raises a transport error. -/
def envAlertRaises : CycleEnv :=
  { sweep := fallbackSweepEnv
    uploadOutcome := fun i => if i = 3 then .ok respB else .ok respN
    alertRaises := true
    faults := noFaults }

/-! ## Properties of the strict-greater selection fold -/

theorem firstMax_cons (p r : ApiResponse) (ps : List ApiResponse) :
    firstMax p (r :: ps) = firstMax (betterOf p r) ps := rfl

theorem pyConf_betterOf (b r : ApiResponse) :
    pyConf (betterOf b r) = max (pyConf b) (pyConf r) := by
  by_cases h : pyConf b < pyConf r
  · simp [betterOf, h, max_eq_right (le_of_lt h)]
  · simp [betterOf, h, max_eq_left (not_lt.mp h)]

theorem betterOf_eq_or (b r : ApiResponse) :
    betterOf b r = b ∨ betterOf b r = r := by
  unfold betterOf
  split
  · right; rfl
  · left; rfl

theorem le_pyConf_firstMax (p : ApiResponse) (ps : List ApiResponse) :
    pyConf p ≤ pyConf (firstMax p ps) := by
  induction ps generalizing p with
  | nil => exact le_refl _
  | cons r ps ih =>
    rw [firstMax_cons]
    refine le_trans ?_ (ih (betterOf p r))
    rw [pyConf_betterOf]
    exact le_max_left _ _

theorem firstMax_mem (p : ApiResponse) (ps : List ApiResponse) :
    firstMax p ps ∈ p :: ps := by
  induction ps generalizing p with
  | nil => simp [firstMax]
  | cons r ps ih =>
    rw [firstMax_cons]
    rcases List.mem_cons.mp (ih (betterOf p r)) with h | h
    · rcases betterOf_eq_or p r with e | e <;> rw [e] at h ⊢ <;> simp [h]
    · exact List.mem_cons_of_mem _ (List.mem_cons_of_mem _ h)

theorem pyConf_le_firstMax (p : ApiResponse) (ps : List ApiResponse) :
    ∀ x ∈ p :: ps, pyConf x ≤ pyConf (firstMax p ps) := by
  induction ps generalizing p with
  | nil =>
    intro x hx
    rcases List.mem_cons.mp hx with h | h
    · subst h; exact le_refl _
    · simp at h
  | cons r ps ih =>
    intro x hx
    rw [firstMax_cons]
    rcases List.mem_cons.mp hx with h | h
    · subst h
      refine le_trans ?_ (le_pyConf_firstMax (betterOf x r) ps)
      rw [pyConf_betterOf]; exact le_max_left _ _
    · rcases List.mem_cons.mp h with h2 | h2
      · subst h2
        refine le_trans ?_ (le_pyConf_firstMax (betterOf p x) ps)
        rw [pyConf_betterOf]; exact le_max_right _ _
      · exact ih (betterOf p r) x (List.mem_cons_of_mem _ h2)

theorem firstMax_eq_self (p : ApiResponse) (ps : List ApiResponse)
    (h : pyConf (firstMax p ps) ≤ pyConf p) : firstMax p ps = p := by
  induction ps generalizing p with
  | nil => rfl
  | cons r ps ih =>
    rw [firstMax_cons] at h ⊢
    have hbr : pyConf (betterOf p r) ≤ pyConf p :=
      le_trans (le_pyConf_firstMax _ _) h
    have hrp : ¬ pyConf p < pyConf r := by
      intro hlt
      have : pyConf r ≤ pyConf p := by
        refine le_trans ?_ hbr
        rw [pyConf_betterOf]; exact le_max_right _ _
      exact absurd hlt (not_lt.mpr this)
    have hb : betterOf p r = p := by simp [betterOf, hrp]
    rw [hb] at h ⊢
    exact ih p h

theorem firstMax_start_irrel (ps : List ApiResponse) :
    ∀ p q : ApiResponse, pyConf q ≤ pyConf p →
      pyConf p < pyConf (firstMax p ps) → firstMax q ps = firstMax p ps := by
  induction ps with
  | nil =>
    intro p q _ h
    exact absurd h (lt_irrefl _)
  | cons r ps ih =>
    intro p q hqp hlt
    rw [firstMax_cons] at hlt ⊢
    rw [firstMax_cons]
    by_cases hpr : pyConf p < pyConf r
    · have hqr : pyConf q < pyConf r := lt_of_le_of_lt hqp hpr
      have e1 : betterOf p r = r := by simp [betterOf, hpr]
      have e2 : betterOf q r = r := by simp [betterOf, hqr]
      rw [e1, e2]
    · have e1 : betterOf p r = p := by simp [betterOf, hpr]
      rw [e1] at hlt ⊢
      by_cases hqr : pyConf q < pyConf r
      · have e2 : betterOf q r = r := by simp [betterOf, hqr]
        rw [e2]
        exact ih p r (not_lt.mp hpr) hlt
      · have e2 : betterOf q r = q := by simp [betterOf, hqr]
        rw [e2]
        exact ih p q hqp hlt

theorem firstMax_first_seen (ps : List ApiResponse) :
    ∀ p : ApiResponse,
      (p :: ps).find? (fun x => decide (pyConf (firstMax p ps) ≤ pyConf x)) =
        some (firstMax p ps) := by
  induction ps with
  | nil =>
    intro p
    apply List.find?_cons_of_pos
    simp [firstMax]
  | cons r ps ih =>
    intro p
    rw [firstMax_cons]
    by_cases hpr : pyConf p < pyConf r
    · have e1 : betterOf p r = r := by simp [betterOf, hpr]
      rw [e1]
      have hM : pyConf r ≤ pyConf (firstMax r ps) := le_pyConf_firstMax r ps
      have hp : ¬ pyConf (firstMax r ps) ≤ pyConf p :=
        not_le.mpr (lt_of_lt_of_le hpr hM)
      rw [List.find?_cons_of_neg _ (by simpa using hp)]
      exact ih r
    · have e1 : betterOf p r = p := by simp [betterOf, hpr]
      rw [e1]
      by_cases hle : pyConf (firstMax p ps) ≤ pyConf p
      · rw [firstMax_eq_self p ps hle]
        apply List.find?_cons_of_pos
        simp [le_trans (le_pyConf_firstMax p ps) hle]
      · push_neg at hle
        rw [List.find?_cons_of_neg _ (by simpa using not_le.mpr hle)]
        have e3 : firstMax r ps = firstMax p ps :=
          firstMax_start_irrel ps p r (not_lt.mp hpr) hle
        rw [← e3]
        exact ih r

/-! ## Decomposition of the upload loop -/

theorem processSample_deleted (st : AnalyzeState) (s : Sample) :
    (processSample st s).deleted = st.deleted ++ [s.file.path] := by
  rcases s with ⟨f, o⟩
  cases o with
  | transportError => rfl
  | ok r =>
    cases h : interpretRunSprinkler r.runSprinkler with
    | error e => simp [processSample, h]
    | ok b => cases b <;> simp [processSample, h]

theorem processSample_allSuccess (st : AnalyzeState) (s : Sample) :
    (processSample st s).allSuccess = (st.allSuccess && uploadProcessedOk s) := by
  rcases s with ⟨f, o⟩
  cases o with
  | transportError => simp [processSample, uploadProcessedOk]
  | ok r =>
    cases h : interpretRunSprinkler r.runSprinkler with
    | error e => simp [processSample, uploadProcessedOk, h]
    | ok b => cases b <;> simp [processSample, uploadProcessedOk, h]

theorem processSample_anyThreat (st : AnalyzeState) (s : Sample) :
    (processSample st s).anyThreat = (st.anyThreat || (positiveResp s).isSome) := by
  rcases s with ⟨f, o⟩
  cases o with
  | transportError => simp [processSample, positiveResp]
  | ok r =>
    cases h : interpretRunSprinkler r.runSprinkler with
    | error e => simp [processSample, positiveResp, h]
    | ok b => cases b <;> simp [processSample, positiveResp, h]

theorem processSample_totalThreats (st : AnalyzeState) (s : Sample) :
    (processSample st s).totalThreats =
      st.totalThreats + (if (positiveResp s).isSome then 1 else 0) := by
  rcases s with ⟨f, o⟩
  cases o with
  | transportError => simp [processSample, positiveResp]
  | ok r =>
    cases h : interpretRunSprinkler r.runSprinkler with
    | error e => simp [processSample, positiveResp, h]
    | ok b => cases b <;> simp [processSample, positiveResp, h]

theorem processSample_best (st : AnalyzeState) (s : Sample) :
    (processSample st s).best =
      (match positiveResp s with
       | none => st.best
       | some r =>
         match st.best with
         | none => some r
         | some b => some (betterOf b r)) := by
  rcases s with ⟨f, o⟩
  cases o with
  | transportError => simp [processSample, positiveResp]
  | ok r =>
    cases h : interpretRunSprinkler r.runSprinkler with
    | error e => simp [processSample, positiveResp, h]
    | ok b => cases b <;> simp [processSample, positiveResp, h]

theorem positivesOf_cons (s : Sample) (rest : List Sample) :
    positivesOf (s :: rest) =
      (match positiveResp s with
       | none => positivesOf rest
       | some r => r :: positivesOf rest) := by
  simp only [positivesOf, List.filterMap_cons]
  cases positiveResp s <;> rfl

theorem analyzeFold_deleted (samples : List Sample) :
    ∀ st : AnalyzeState, (samples.foldl processSample st).deleted =
      st.deleted ++ samples.map (fun s => s.file.path) := by
  induction samples with
  | nil => intro st; simp
  | cons s rest ih =>
    intro st
    rw [List.foldl_cons, ih, processSample_deleted]
    simp

theorem analyzeFold_allSuccess (samples : List Sample) :
    ∀ st : AnalyzeState, (samples.foldl processSample st).allSuccess =
      (st.allSuccess && samples.all uploadProcessedOk) := by
  induction samples with
  | nil => intro st; simp
  | cons s rest ih =>
    intro st
    rw [List.foldl_cons, ih, processSample_allSuccess]
    simp [Bool.and_assoc]

theorem analyzeFold_anyThreat (samples : List Sample) :
    ∀ st : AnalyzeState, (samples.foldl processSample st).anyThreat =
      (st.anyThreat || samples.any (fun s => (positiveResp s).isSome)) := by
  induction samples with
  | nil => intro st; simp
  | cons s rest ih =>
    intro st
    rw [List.foldl_cons, ih, processSample_anyThreat]
    simp [Bool.or_assoc]

theorem analyzeFold_totalThreats (samples : List Sample) :
    ∀ st : AnalyzeState, (samples.foldl processSample st).totalThreats =
      st.totalThreats + (positivesOf samples).length := by
  induction samples with
  | nil => intro st; simp [positivesOf]
  | cons s rest ih =>
    intro st
    rw [List.foldl_cons, ih, processSample_totalThreats, positivesOf_cons]
    cases positiveResp s
    · simp
    · simp
      omega

theorem analyzeFold_best (samples : List Sample) :
    ∀ st : AnalyzeState, (samples.foldl processSample st).best =
      bestAfter st.best (positivesOf samples) := by
  induction samples with
  | nil =>
    intro st
    cases h : st.best <;> simp [positivesOf, bestAfter, h, firstMax]
  | cons s rest ih =>
    intro st
    rw [List.foldl_cons, ih, positivesOf_cons]
    cases hp : positiveResp s with
    | none =>
      have hbest : (processSample st s).best = st.best := by
        rw [processSample_best, hp]
      rw [hbest]
    | some r =>
      have hbest : (processSample st s).best =
          (match st.best with
           | none => some r
           | some b => some (betterOf b r)) := by
        rw [processSample_best, hp]
      rw [hbest]
      cases st.best with
      | none => simp [bestAfter]
      | some b => simp [bestAfter, firstMax_cons]

/-! ## Shape of `analyzeCapturedImages` -/

theorem analyzeCapturedImages_loopState (tt0 : Nat) (samples : List Sample)
    (a : Bool) :
    (analyzeCapturedImages tt0 samples a).loopState = analyzeLoop tt0 samples := by
  unfold analyzeCapturedImages
  cases h : (analyzeLoop tt0 samples).best <;> cases a <;> simp [h]

theorem analyzeCapturedImages_alertAttempted (tt0 : Nat) (samples : List Sample)
    (a : Bool) :
    (analyzeCapturedImages tt0 samples a).alertAttempted =
      (analyzeLoop tt0 samples).best.isSome := by
  unfold analyzeCapturedImages
  cases h : (analyzeLoop tt0 samples).best <;> cases a <;> simp [h]

theorem analyzeCapturedImages_alertPosted (tt0 : Nat) (samples : List Sample)
    (a : Bool) :
    (analyzeCapturedImages tt0 samples a).alertPosted =
      ((analyzeLoop tt0 samples).best.isSome && !a) := by
  unfold analyzeCapturedImages
  cases h : (analyzeLoop tt0 samples).best <;> cases a <;> simp [h]

theorem analyzeCapturedImages_raised (tt0 : Nat) (samples : List Sample)
    (a : Bool) :
    (analyzeCapturedImages tt0 samples a).raised =
      ((analyzeLoop tt0 samples).best.isSome && a) := by
  unfold analyzeCapturedImages
  cases h : (analyzeLoop tt0 samples).best <;> cases a <;> simp [h]

theorem analyzeLoop_best (tt0 : Nat) (samples : List Sample) :
    (analyzeLoop tt0 samples).best = bestAfter none (positivesOf samples) :=
  analyzeFold_best samples _

theorem positiveResp_of_transportError (s : Sample)
    (h : s.outcome = .transportError) : positiveResp s = none := by
  unfold positiveResp
  rw [h]

/-! ## Claim theorems -/

/-- C1: among the verdicts with a positive threat detection, the Incident is
built from the first-seen verdict of strictly greatest confidence — a later
positive replaces the current best only when its confidence is strictly
greater, so ties resolve to the first-seen one (`find?` locates the selected
verdict as the first positive whose confidence reaches the maximum) — and
when no verdict in the sweep is positive, no Incident is produced and no
alert POST is attempted. -/
theorem incident_is_first_seen_max (tt0 : Nat) (samples : List Sample)
    (a : Bool) :
    (positivesOf samples = [] →
      (analyzeCapturedImages tt0 samples a).loopState.best = none ∧
      (analyzeCapturedImages tt0 samples a).alertAttempted = false ∧
      (analyzeCapturedImages tt0 samples a).alertPosted = false) ∧
    (∀ p ps, positivesOf samples = p :: ps →
      (analyzeCapturedImages tt0 samples a).loopState.best =
        some (firstMax p ps) ∧
      firstMax p ps ∈ positivesOf samples ∧
      (∀ r ∈ positivesOf samples, pyConf r ≤ pyConf (firstMax p ps)) ∧
      (positivesOf samples).find?
          (fun x => decide (pyConf (firstMax p ps) ≤ pyConf x)) =
        some (firstMax p ps) ∧
      (analyzeCapturedImages tt0 samples a).alertAttempted = true) := by
  have hb : (analyzeLoop tt0 samples).best =
      bestAfter none (positivesOf samples) := analyzeLoop_best tt0 samples
  constructor
  · intro h
    rw [h] at hb
    simp only [bestAfter] at hb
    refine ⟨?_, ?_, ?_⟩
    · rw [analyzeCapturedImages_loopState]; exact hb
    · rw [analyzeCapturedImages_alertAttempted, hb]; rfl
    · rw [analyzeCapturedImages_alertPosted, hb]; rfl
  · intro p ps h
    rw [h] at hb
    simp only [bestAfter] at hb
    refine ⟨?_, ?_, ?_, ?_, ?_⟩
    · rw [analyzeCapturedImages_loopState]; exact hb
    · rw [h]; exact firstMax_mem p ps
    · rw [h]; exact pyConf_le_firstMax p ps
    · rw [h]; exact firstMax_first_seen ps p
    · rw [analyzeCapturedImages_alertAttempted, hb]; rfl

/-- Witness for C1 at a concrete sweep with three positives of confidences
1, 3, 3: the Incident is the first-seen verdict of maximal confidence
(`respB`, not the equal-confidence later `respC`). -/
theorem incident_is_first_seen_max_witness :
    (analyzeCapturedImages 0
        [sampleOf 0 (.ok respA), sampleOf 1 (.ok respB),
         sampleOf 2 (.ok respC), sampleOf 3 (.ok respN)]
        false).loopState.best = some respB := by
  have h := (incident_is_first_seen_max 0
      [sampleOf 0 (.ok respA), sampleOf 1 (.ok respB),
       sampleOf 2 (.ok respC), sampleOf 3 (.ok respN)] false).2
      respA [respB, respC] (by decide)
  exact h.1.trans (by decide)

/-- C4: a transport failure on one sample's upload sets
`allUploadsSucceeded=false` for the sweep but never aborts the loop — every
file is still cleaned up, and the Incident (and the threat flag) are exactly
what the remaining samples would produce on their own. -/
theorem upload_failure_does_not_abort (tt0 : Nat) (a : Bool)
    (pre post : List Sample) (s : Sample)
    (h : s.outcome = .transportError) :
    (analyzeCapturedImages tt0 (pre ++ s :: post) a).loopState.allSuccess = false ∧
    (analyzeCapturedImages tt0 (pre ++ s :: post) a).loopState.deleted =
      (pre ++ s :: post).map (fun t => t.file.path) ∧
    (analyzeCapturedImages tt0 (pre ++ s :: post) a).loopState.best =
      (analyzeCapturedImages tt0 (pre ++ post) a).loopState.best ∧
    (analyzeCapturedImages tt0 (pre ++ s :: post) a).loopState.anyThreat =
      (analyzeCapturedImages tt0 (pre ++ post) a).loopState.anyThreat := by
  have hpos : positivesOf (pre ++ s :: post) = positivesOf (pre ++ post) := by
    simp only [positivesOf, List.filterMap_append, List.filterMap_cons,
      positiveResp_of_transportError s h]
  refine ⟨?_, ?_, ?_, ?_⟩
  · rw [analyzeCapturedImages_loopState]
    unfold analyzeLoop
    rw [analyzeFold_allSuccess]
    have : uploadProcessedOk s = false := by
      unfold uploadProcessedOk; rw [h]
    simp [List.all_append, this]
  · rw [analyzeCapturedImages_loopState]
    unfold analyzeLoop
    rw [analyzeFold_deleted]
    simp
  · rw [analyzeCapturedImages_loopState, analyzeCapturedImages_loopState]
    unfold analyzeLoop
    rw [analyzeFold_best, analyzeFold_best, hpos]
  · rw [analyzeCapturedImages_loopState, analyzeCapturedImages_loopState]
    unfold analyzeLoop
    rw [analyzeFold_anyThreat, analyzeFold_anyThreat]
    have : (positiveResp s).isSome = false := by
      rw [positiveResp_of_transportError s h]; rfl
    simp [List.any_append, this]

/-- Witness for C4: sample 2 of 3 suffers a transport error, yet the later
positive verdict still forms the Incident and all files are deleted. -/
theorem upload_failure_does_not_abort_witness :
    (analyzeCapturedImages 0
        ([sampleOf 0 (.ok respN)] ++ sampleOf 1 .transportError ::
          [sampleOf 2 (.ok respB)]) false).loopState.allSuccess = false ∧
    (analyzeCapturedImages 0
        ([sampleOf 0 (.ok respN)] ++ sampleOf 1 .transportError ::
          [sampleOf 2 (.ok respB)]) false).loopState.best =
      (analyzeCapturedImages 0
        ([sampleOf 0 (.ok respN)] ++ [sampleOf 2 (.ok respB)])
        false).loopState.best := by
  have h := upload_failure_does_not_abort 0 false [sampleOf 0 (.ok respN)]
      [sampleOf 2 (.ok respB)] (sampleOf 1 .transportError) rfl
  exact ⟨h.1, h.2.2.1⟩

/-- C5: after the analysis of a sweep completes, every file in the captured
list has been deleted from local storage — the per-sample `finally` runs on
the success path, the non-2xx/transport-error path and the generic exception
path alike, and the deletion list is exactly the input file list. -/
theorem every_sample_file_deleted (tt0 : Nat) (samples : List Sample)
    (a : Bool) :
    (analyzeCapturedImages tt0 samples a).loopState.deleted =
      samples.map (fun s => s.file.path) := by
  rw [analyzeCapturedImages_loopState]
  unfold analyzeLoop
  rw [analyzeFold_deleted]
  rfl

/-- C7 (code divergence): a string-valued `run_sprinkler` is consumed as the
spec says ("Y"/"y" positive, "N" or absent negative), but a boolean value
makes line 283 raise `AttributeError` (`.upper()` on a bool) before the
`or run_sprinkler is True` disjunct can fire, so a boolean-true verdict is
recorded as a failed sample rather than a threat. -/
theorem bool_run_sprinkler_raises :
    interpretRunSprinkler (.bool true) = .error () ∧
    interpretRunSprinkler (.bool false) = .error () ∧
    interpretRunSprinkler (.str "Y") = .ok true ∧
    interpretRunSprinkler (.str "y") = .ok true ∧
    interpretRunSprinkler (.str "N") = .ok false ∧
    interpretRunSprinkler .absent = .ok false ∧
    (analyzeCapturedImages 0
        [sampleOf 0 (.ok { runSprinkler := .bool true, confidence := some 1,
                           imageId := "i" })] false).loopState.anyThreat
      = false ∧
    (analyzeCapturedImages 0
        [sampleOf 0 (.ok { runSprinkler := .bool true, confidence := some 1,
                           imageId := "i" })] false).loopState.allSuccess
      = false ∧
    (analyzeCapturedImages 0
        [sampleOf 0 (.ok { runSprinkler := .bool true, confidence := some 1,
                           imageId := "i" })] false).alertAttempted
      = false := by
  exact ⟨rfl, rfl, rfl, rfl, rfl, rfl, rfl, rfl, rfl⟩

/-- C8 (amended): `activate_sprinkler` never raises; it returns `true`
exactly when the hardware is available and activation, hold and deactivation
all complete; the actuation counter is incremented as soon as activation
succeeds (even if the run then fails); and the pin is low afterwards in every
case except when an exception strikes after activation and the recovery
`GPIO.output(LOW)` in the handler itself fails, in which case the pin stays
high. Unavailable hardware returns `false` without touching the pin. -/
theorem sprinkler_run_guarantees (f : SprinklerFaults) (st : DefenseState) :
    activateSprinklerE f st = .ok (activateSprinkler f st) ∧
    (activateSprinkler f st).2 =
      (st.sprinklerAvailable && !f.highRaises && !f.sleepRaises && !f.lowRaises) ∧
    (activateSprinkler f st).1.sprinklerLevel =
      (if !st.sprinklerAvailable then st.sprinklerLevel
       else if !f.highRaises && !f.sleepRaises && !f.lowRaises then false
       else if !f.recoveryLowRaises then false
       else if f.highRaises then st.sprinklerLevel
       else true) ∧
    (activateSprinkler f st).1.totalActuations =
      st.totalActuations +
        (if st.sprinklerAvailable && !f.highRaises then 1 else 0) ∧
    (activateSprinkler f st).1.sweepDirectionForward =
      st.sweepDirectionForward := by
  rcases f with ⟨h1, h2, h3, h4⟩
  rcases st with ⟨dir, tc, tt, ta, av, lv⟩
  cases h1 <;> cases h2 <;> cases h3 <;> cases h4 <;> cases av <;>
    simp [activateSprinkler, activateSprinklerE, sprinklerBody, sprinklerRecovery]

/-- C8 counterexample: with the hold interrupted (`time.sleep` raises) and
the recovery `GPIO.output(LOW)` also failing, the call returns `false`
without raising but leaves the sprinkler output high — not at the off
level. -/
theorem sprinkler_can_stay_on :
    (activateSprinkler
      { highRaises := false, sleepRaises := true, lowRaises := false,
        recoveryLowRaises := true } startState).1.sprinklerLevel = true ∧
    (activateSprinkler
      { highRaises := false, sleepRaises := true, lowRaises := false,
        recoveryLowRaises := true } startState).2 = false := by
  exact ⟨rfl, rfl⟩

/-! ## Camera-loop characterization -/

theorem camLoop_no_fault (caps : List Int) :
    ∀ (fine moved : List Int) (files : List CapturedFile),
      (camLoop caps none moved files fine).files =
        files ++ ((fine.filter (fun a => decide (a ∈ caps))).map camFile) ∧
      (camLoop caps none moved files fine).ok = true := by
  intro fine
  induction fine with
  | nil =>
    intro moved files
    simp [camLoop]
  | cons a rest ih =>
    intro moved files
    by_cases h : a ∈ caps
    · rcases ih (moved ++ [a]) (files ++ [camFile a]) with ⟨h1, h2⟩
      refine ⟨?_, ?_⟩
      · simp only [camLoop, if_pos h]
        simp only [reduceCtorEq, if_false]
        rw [h1]
        simp [List.filter_cons, h]
      · simp only [camLoop, if_pos h]
        simp only [reduceCtorEq, if_false]
        exact h2
    · rcases ih (moved ++ [a]) files with ⟨h1, h2⟩
      refine ⟨?_, ?_⟩
      · simp only [camLoop, if_neg h]
        rw [h1]
        simp [List.filter_cons, h]
      · simp only [camLoop, if_neg h]
        exact h2

theorem camLoop_fault (caps : List Int) (k : Nat) :
    ∀ (fine moved : List Int) (files : List CapturedFile),
      files.length ≤ k →
      (camLoop caps (some k) moved files fine).files =
        files ++
          (((fine.filter (fun a => decide (a ∈ caps))).map camFile).take
            (k - files.length)) ∧
      (camLoop caps (some k) moved files fine).ok =
        decide ((fine.filter (fun a => decide (a ∈ caps))).length ≤
          k - files.length) := by
  intro fine
  induction fine with
  | nil =>
    intro moved files h
    simp [camLoop]
  | cons a rest ih =>
    intro moved files h
    by_cases hmem : a ∈ caps
    · by_cases hk : k = files.length
      · refine ⟨?_, ?_⟩
        · simp only [camLoop, if_pos hmem, hk, if_pos rfl]
          simp [hk]
        · simp only [camLoop, if_pos hmem, hk, if_pos rfl]
          simp [List.filter_cons, hmem, hk]
      · have hcond : ¬ (some k = some files.length) := by
          simp only [Option.some.injEq]
          exact hk
        have hlt : files.length < k := lt_of_le_of_ne h (fun e => hk e.symm)
        have hfc : (a :: rest).filter (fun a => decide (a ∈ caps)) =
            a :: rest.filter (fun a => decide (a ∈ caps)) := by
          simp [List.filter_cons, hmem]
        rcases ih (moved ++ [a]) (files ++ [camFile a])
            (by simp; omega) with ⟨h1, h2⟩
        refine ⟨?_, ?_⟩
        · simp only [camLoop, if_pos hmem, if_neg hcond]
          rw [h1, hfc]
          have hsub : k - files.length = (k - (files.length + 1)) + 1 := by
            omega
          simp only [List.length_append, List.length_singleton, List.map_cons]
          rw [hsub, List.take_succ_cons]
          simp [List.append_assoc]
        · simp only [camLoop, if_pos hmem, if_neg hcond]
          rw [h2, hfc]
          have e1 : (files ++ [camFile a]).length = files.length + 1 := by
            simp
          have e2 : (a :: rest.filter (fun a => decide (a ∈ caps))).length =
              (rest.filter (fun a => decide (a ∈ caps))).length + 1 := by
            simp
          rw [e1, e2]
          exact decide_eq_decide.mpr (by omega)
    · rcases ih (moved ++ [a]) files h with ⟨h1, h2⟩
      refine ⟨?_, ?_⟩
      · simp only [camLoop, if_neg hmem]
        rw [h1]
        simp [List.filter_cons, hmem]
      · simp only [camLoop, if_neg hmem]
        rw [h2]
        simp [List.filter_cons, hmem]

/-- The fine motion angles that coincide with capture angles, forward. -/
theorem fineCaptureFilter_forward :
    (fineSweepAngles true).filter (fun a => decide (a ∈ captureAngles true)) =
      [0, 45, 90, 135, 180] := by decide

/-- The fine motion angles that coincide with capture angles, backward. -/
theorem fineCaptureFilter_backward :
    (fineSweepAngles false).filter (fun a => decide (a ∈ captureAngles false)) =
      [180, 135, 90, 45, 0] := by decide

/-- Whenever a sweep reports success it has produced at least one file. -/
theorem sweep_success_files (env : SweepEnv) (fwd : Bool)
    (h : (sweepServoAndCapture env fwd).success = true) :
    (sweepServoAndCapture env fwd).files ≠ [] := by
  unfold sweepServoAndCapture at h ⊢
  cases hc : env.cameraAvailable with
  | false =>
    cases hd : env.fallbackDirExists with
    | false => simp [hc, hd] at h
    | true =>
      cases he : env.fallbackImages.isEmpty with
      | true => simp [hc, hd, he] at h
      | false =>
        simp only [hc, hd, he, Bool.not_false, if_true, Bool.false_eq_true,
          if_false]
        simp [fallbackFiles, NUM_CAPTURE_POINTS]
  | true =>
    cases hs : env.servoAvailable with
    | false => simp [hc, hs] at h
    | true =>
      cases hf : env.cameraFaultAt with
      | none =>
        rcases camLoop_no_fault (captureAngles fwd) (fineSweepAngles fwd) [] []
          with ⟨h1, _⟩
        simp only [hc, hs, hf, Bool.not_true, Bool.false_eq_true, if_false]
        rw [h1]
        cases fwd
        · rw [fineCaptureFilter_backward]; simp
        · rw [fineCaptureFilter_forward]; simp
      | some k =>
        rcases camLoop_fault (captureAngles fwd) k (fineSweepAngles fwd) [] []
            (Nat.zero_le k) with ⟨h1, h2⟩
        simp only [hc, hs, hf, Bool.not_true, Bool.false_eq_true,
          if_false] at h ⊢
        rw [h2] at h
        rw [h1]
        cases fwd
        · rw [fineCaptureFilter_backward] at h ⊢
          simp only [decide_eq_true_eq, List.length_cons, List.length_nil] at h
          simp [List.take_eq_nil_iff]
          omega
        · rw [fineCaptureFilter_forward] at h ⊢
          simp only [decide_eq_true_eq, List.length_cons, List.length_nil] at h
          simp [List.take_eq_nil_iff]
          omega

/-- The deterrent run never touches the direction flag. -/
theorem activateSprinkler_dir (f : SprinklerFaults) (st : DefenseState) :
    (activateSprinkler f st).1.sweepDirectionForward =
      st.sweepDirectionForward := by
  rcases f with ⟨a, b, c, d⟩
  rcases st with ⟨dir, tc, tt, ta, av, lv⟩
  cases a <;> cases b <;> cases c <;> cases d <;> cases av <;>
    simp [activateSprinkler, sprinklerBody, sprinklerRecovery]

/-- C6 (amended): the direction flag is toggled exactly once in a cycle
whose sweep-and-capture step reported success AND whose analysis returned
normally (no uncaught alert-POST exception), and exactly zero times
otherwise; the toggle does not depend on the analysis success flag
(`allUploadsSucceeded`). -/
theorem direction_toggle_rule (st : DefenseState) (env : CycleEnv) :
    (executeDefenseStep st env).directionToggles =
      (if (executeDefenseStep st env).captureSucceeded &&
          !(executeDefenseStep st env).raised then 1 else 0) ∧
    (executeDefenseStep st env).stateAfter.sweepDirectionForward =
      xor st.sweepDirectionForward
        ((executeDefenseStep st env).captureSucceeded &&
          !(executeDefenseStep st env).raised) := by
  simp only [executeDefenseStep]
  split_ifs with h1 h2 h3 h4 <;>
    simp_all [activateSprinkler_dir, Bool.xor_true, Bool.xor_false]
  exact sweep_success_files env.sweep st.sweepDirectionForward h2 h1

/-- C6 counterexample: a cycle whose sweep-and-capture step reported success
but in which the alert POST raised — the direction flag is toggled zero
times, not once, even though capture succeeded. -/
theorem capture_success_without_toggle :
    (executeDefenseStep startState envAlertRaises).captureSucceeded = true ∧
    (executeDefenseStep startState envAlertRaises).directionToggles = 0 ∧
    (executeDefenseStep startState envAlertRaises).stateAfter.sweepDirectionForward
      = startState.sweepDirectionForward := by
  refine ⟨?_, ?_, ?_⟩ <;> decide

/-- C2 (code divergence): a cycle in which one sample's upload fails and
another sample carries a positive verdict. An Incident is produced,
`totalThreats` is incremented and the alert is posted, but
`capture_and_analyze_sweep` returns `analysis_success=False`, so the
monitoring loop logs a failure and `continue`s: the deterrent run is never
invoked and `totalActuations` stays unchanged. -/
theorem threat_with_failed_upload_skips_sprinkler :
    (executeDefenseStep startState envUploadFailWithThreat).threat = true ∧
    (executeDefenseStep startState envUploadFailWithThreat).alertAttempted = true ∧
    (executeDefenseStep startState envUploadFailWithThreat).alertPosted = true ∧
    (executeDefenseStep startState envUploadFailWithThreat).sprinklerInvoked = false ∧
    (executeDefenseStep startState envUploadFailWithThreat).success = false ∧
    (executeDefenseStep startState envUploadFailWithThreat).stateAfter.totalActuations = 0 ∧
    (executeDefenseStep startState envUploadFailWithThreat).stateAfter.totalThreats = 1 := by
  refine ⟨?_, ?_, ?_, ?_, ?_, ?_, ?_⟩ <;> decide

/-- C9 (amended): when the capture device is unavailable, the library
directory exists and the fallback library is non-empty, the degraded path
commands no servo motion and produces exactly `NUM_CAPTURE_POINTS` samples,
each a copy of a library file chosen by the randomness source, and reports
success; the samples carry no distinguishing origin tag — they use the same
filename scheme as live captures. -/
theorem fallback_capture_behaviour (env : SweepEnv) (fwd : Bool)
    (hcam : env.cameraAvailable = false)
    (hdir : env.fallbackDirExists = true)
    (hne : env.fallbackImages ≠ []) :
    (sweepServoAndCapture env fwd).success = true ∧
    (sweepServoAndCapture env fwd).files.length = NUM_CAPTURE_POINTS ∧
    (sweepServoAndCapture env fwd).moved = [] ∧
    ∀ f ∈ (sweepServoAndCapture env fwd).files,
      ∃ src ∈ env.fallbackImages, f.content = .copyOf src := by
  have hie : env.fallbackImages.isEmpty = false := by
    cases h : env.fallbackImages.isEmpty
    · rfl
    · exact absurd (List.isEmpty_iff.mp h) hne
  unfold sweepServoAndCapture
  simp only [hcam, hdir, hie, Bool.not_false, if_true, Bool.false_eq_true,
    if_false]
  refine ⟨trivial, ?_, trivial, ?_⟩
  · simp [fallbackFiles]
  · intro f hf
    simp only [fallbackFiles, List.mem_map, List.mem_range] at hf
    obtain ⟨i, _, rfl⟩ := hf
    refine ⟨env.fallbackImages.getD
      (env.choice i % env.fallbackImages.length) "", ?_, rfl⟩
    have hlen : 0 < env.fallbackImages.length := List.length_pos.mpr hne
    have hmod : env.choice i % env.fallbackImages.length <
        env.fallbackImages.length := Nat.mod_lt _ hlen
    rw [List.getD_eq_getElem _ _ hmod]
    exact List.getElem_mem _

/-- Witness for C9 at the concrete one-image fallback library. -/
theorem fallback_capture_behaviour_witness :
    (sweepServoAndCapture fallbackSweepEnv true).success = true ∧
    (sweepServoAndCapture fallbackSweepEnv true).files.length =
      NUM_CAPTURE_POINTS := by
  have h := fallback_capture_behaviour fallbackSweepEnv true rfl rfl
    (by decide)
  exact ⟨h.1, h.2.1⟩

/-- C9 counterexample: with the capture device unavailable and the fallback
library empty, the degraded path reports `success=False` and produces zero
samples — it does not "always report success=true". -/
theorem empty_fallback_library_fails :
    ¬ ((sweepServoAndCapture emptyLibraryEnv true).success = true) ∧
    (sweepServoAndCapture emptyLibraryEnv true).files = [] := by
  refine ⟨?_, ?_⟩ <;> decide

/-- Shape of a cycle whose sweep-and-capture step failed: no analysis, no
deletion, no toggle, no sprinkler. -/
theorem executeDefenseStep_capture_failed (st : DefenseState) (env : CycleEnv)
    (h : (sweepServoAndCapture env.sweep st.sweepDirectionForward).success
      = false) :
    executeDefenseStep st env =
      { stateAfter := { st with totalChecks := st.totalChecks + 1 },
        captureSucceeded := false,
        capturedFiles :=
          (sweepServoAndCapture env.sweep st.sweepDirectionForward).files,
        success := false, threat := false, raised := false,
        directionToggles := 0, deletedPaths := [],
        alertAttempted := false, alertPosted := false,
        sprinklerInvoked := false, sprinklerResult := false } := by
  simp only [executeDefenseStep]
  simp [h]

/-- C10: an exception during a camera-based sweep after `k ≥ 1` captures
makes the sweep return `success=False` with the `k` partially captured
files; the cycle then skips analysis entirely, so no deletion happens and
all the partial files remain on disk after the cycle. -/
theorem partial_capture_files_persist (st : DefenseState) (env : CycleEnv)
    (k : Nat)
    (hcam : env.sweep.cameraAvailable = true)
    (hservo : env.sweep.servoAvailable = true)
    (hfault : env.sweep.cameraFaultAt = some k)
    (hk1 : 1 ≤ k) (hk5 : k < NUM_CAPTURE_POINTS) :
    (executeDefenseStep st env).captureSucceeded = false ∧
    (executeDefenseStep st env).capturedFiles.length = k ∧
    (executeDefenseStep st env).capturedFiles ≠ [] ∧
    (executeDefenseStep st env).deletedPaths = [] ∧
    (executeDefenseStep st env).alertAttempted = false ∧
    (executeDefenseStep st env).directionToggles = 0 ∧
    filesRemaining (executeDefenseStep st env) =
      (executeDefenseStep st env).capturedFiles := by
  rcases camLoop_fault (captureAngles st.sweepDirectionForward) k
      (fineSweepAngles st.sweepDirectionForward) [] [] (Nat.zero_le k)
    with ⟨h1, h2⟩
  have hsw : sweepServoAndCapture env.sweep st.sweepDirectionForward =
      { success := (camLoop (captureAngles st.sweepDirectionForward) (some k)
          [] [] (fineSweepAngles st.sweepDirectionForward)).ok,
        files := (camLoop (captureAngles st.sweepDirectionForward) (some k)
          [] [] (fineSweepAngles st.sweepDirectionForward)).files,
        moved := (camLoop (captureAngles st.sweepDirectionForward) (some k)
          [] [] (fineSweepAngles st.sweepDirectionForward)).moved } := by
    unfold sweepServoAndCapture
    simp [hcam, hservo, hfault]
  have hflen :
      ((fineSweepAngles st.sweepDirectionForward).filter
        (fun a => decide (a ∈ captureAngles st.sweepDirectionForward))).length
      = 5 := by
    cases st.sweepDirectionForward
    · rw [fineCaptureFilter_backward]; rfl
    · rw [fineCaptureFilter_forward]; rfl
  have hsucc : (sweepServoAndCapture env.sweep
      st.sweepDirectionForward).success = false := by
    rw [hsw]
    simp only [h2, hflen, List.length_nil, Nat.sub_zero]
    simp only [NUM_CAPTURE_POINTS] at hk5
    simp
    omega
  have hstep := executeDefenseStep_capture_failed st env hsucc
  have hfiles : (sweepServoAndCapture env.sweep
        st.sweepDirectionForward).files.length = k := by
    rw [hsw]
    simp only [h1, List.nil_append, List.length_take, List.length_map,
      hflen, List.length_nil, Nat.sub_zero]
    simp only [NUM_CAPTURE_POINTS] at hk5
    omega
  rw [hstep]
  refine ⟨rfl, ?_, ?_, rfl, rfl, rfl, ?_⟩
  · show (sweepServoAndCapture env.sweep
      st.sweepDirectionForward).files.length = k
    exact hfiles
  · show (sweepServoAndCapture env.sweep
      st.sweepDirectionForward).files ≠ []
    intro he
    rw [he] at hfiles
    simp at hfiles
    omega
  · simp [filesRemaining]

/-- Witness for C10: a fault at the third capture of a forward sweep leaves
two never-deleted files on disk. -/
theorem partial_capture_files_persist_witness :
    (executeDefenseStep startState (cameraFaultCycleEnv 2)).captureSucceeded
      = false ∧
    (executeDefenseStep startState
        (cameraFaultCycleEnv 2)).capturedFiles.length = 2 ∧
    (executeDefenseStep startState (cameraFaultCycleEnv 2)).deletedPaths
      = [] := by
  have h := partial_capture_files_persist startState (cameraFaultCycleEnv 2) 2
    rfl rfl rfl (by decide) (by decide)
  exact ⟨h.1, h.2.1, h.2.2.2.1⟩

/-- C3 counterexample: at configuration min=0, max=10, count=5 the integer
division in the step (`10 // 4 = 2`) makes the forward sequence
`range(0, 11, 2) = [0, 2, 4, 6, 8, 10]` — 6 capture angles, not the
configured 5. -/
theorem angle_count_mismatch :
    (anglesToCapture 0 10 5 true).length ≠ 5 := by decide

/-- C3 (amended): for sweep configurations where `count - 1` divides
`max - min` exactly (as in the shipped 0..180 with 5 points), the capture
sequence has exactly `count` elements, evenly spaced as
`min + i*step` (forward) / `max - i*step` (backward), strictly ascending
forward and strictly descending backward, and the backward sequence is the
reverse of the forward one (same set of capture points). -/
theorem capture_angles_evenly_spaced (minA maxA : Int) (count : Nat)
    (h2 : 2 ≤ count) (hlt : minA < maxA)
    (hdvd : ((count : Int) - 1) ∣ (maxA - minA)) :
    anglesToCapture minA maxA count true =
      (List.range count).map
        (fun (i : Nat) => minA + sweepStep minA maxA count * (i : Int)) ∧
    anglesToCapture minA maxA count false =
      (List.range count).map
        (fun (i : Nat) => maxA - sweepStep minA maxA count * (i : Int)) ∧
    (anglesToCapture minA maxA count true).length = count ∧
    (anglesToCapture minA maxA count false).length = count ∧
    anglesToCapture minA maxA count false =
      (anglesToCapture minA maxA count true).reverse ∧
    (anglesToCapture minA maxA count true).Pairwise (· < ·) ∧
    (anglesToCapture minA maxA count false).Pairwise (· > ·) := by
  obtain ⟨c, hc⟩ := hdvd
  have hk0 : (0 : Int) < (count : Int) - 1 := by
    have : (2 : Int) ≤ (count : Int) := by exact_mod_cast h2
    omega
  have hkc : (0 : Int) < ((count : Int) - 1) * c := by
    rw [← hc]; omega
  have hcpos : (0 : Int) < c := by
    by_contra hcn
    push_neg at hcn
    have : ((count : Int) - 1) * c ≤ 0 :=
      mul_nonpos_of_nonneg_of_nonpos (le_of_lt hk0) hcn
    omega
  have hstep : sweepStep minA maxA count = c := by
    unfold sweepStep
    rw [if_pos (by omega : 1 < count), hc]
    exact Int.mul_fdiv_cancel_left _ (ne_of_gt hk0)
  have hmax : maxA = minA + ((count : Int) - 1) * c := by linarith [hc]
  have hF : anglesToCapture minA maxA count true =
      (List.range count).map (fun (i : Nat) => minA + c * (i : Int)) := by
    unfold anglesToCapture
    rw [hstep]
    simp only [if_true]
    unfold pyRange
    rw [if_pos hcpos]
    have hb : ¬ (maxA + 1 ≤ minA) := by omega
    rw [if_neg hb]
    have he : maxA + 1 - minA - 1 = ((count : Int) - 1) * c := by
      rw [← hc]; ring
    rw [he, Int.mul_fdiv_cancel _ (ne_of_gt hcpos)]
    have hn : (((count : Int) - 1) + 1).toNat = count := by omega
    rw [hn]
  have hB : anglesToCapture minA maxA count false =
      (List.range count).map (fun (i : Nat) => maxA - c * (i : Int)) := by
    unfold anglesToCapture
    rw [hstep]
    simp only [Bool.false_eq_true, if_false]
    unfold pyRange
    rw [if_neg (by omega : ¬ (0 : Int) < -c), if_pos (by omega : -c < 0)]
    have hb : ¬ (maxA ≤ minA - 1) := by omega
    rw [if_neg hb]
    have he : maxA - (minA - 1) - 1 = ((count : Int) - 1) * c := by
      rw [← hc]; ring
    rw [neg_neg, he, Int.mul_fdiv_cancel _ (ne_of_gt hcpos)]
    have hn : (((count : Int) - 1) + 1).toNat = count := by omega
    rw [hn]
  refine ⟨by rw [hstep]; exact hF, by rw [hstep]; exact hB, ?_, ?_, ?_, ?_, ?_⟩
  · rw [hF]; simp
  · rw [hB]; simp
  · rw [hF, hB]
    apply List.ext_getElem
    · simp
    · intro i h1 h2i
      simp only [List.length_map, List.length_range] at h1 h2i
      simp only [List.getElem_reverse, List.getElem_map, List.getElem_range,
        List.length_map, List.length_range]
      have hcast : ((count - 1 - i : Nat) : Int) = (count : Int) - 1 - i := by
        omega
      rw [hcast, hmax]
      ring
  · rw [hF, List.pairwise_map]
    refine List.Pairwise.imp ?_ (List.pairwise_lt_range count)
    intro i j hij
    have hij2 : (i : Int) < (j : Int) := by exact_mod_cast hij
    have := mul_lt_mul_of_pos_left hij2 hcpos
    linarith
  · rw [hB, List.pairwise_map]
    refine List.Pairwise.imp ?_ (List.pairwise_lt_range count)
    intro i j hij
    have hij2 : (i : Int) < (j : Int) := by exact_mod_cast hij
    have := mul_lt_mul_of_pos_left hij2 hcpos
    simp only [gt_iff_lt]
    linarith

/-- Witness for C3 at the shipped configuration: 5 angles forward, and the
backward sweep is the exact reverse. -/
theorem capture_angles_evenly_spaced_witness :
    (anglesToCapture 0 180 5 true).length = 5 ∧
    anglesToCapture 0 180 5 false = (anglesToCapture 0 180 5 true).reverse := by
  have h := capture_angles_evenly_spaced 0 180 5 (by norm_num)
    (by norm_num) (by norm_num)
  exact ⟨h.2.2.1, h.2.2.2.2.1⟩

end ApicultureDefense
